import Mathlib

/-!
# Verification of "the-pill" data clients, tool dispatcher and agent loop

A shallow embedding of the Python sources of the-pill (src/app.py,
src/tools/sec_fetcher.py, src/tools/stock_data.py) together with proofs of
the behavioural properties stated in the specification.

Python strings are modelled as Lean `String`s, with the string operations
the code uses (upper-casing, lexicographic comparison by code point,
zero-fill) redefined over the underlying character list so that all
definitions evaluate by `decide`/`rfl`.  Network interactions are modelled
as explicit inputs: every fetch that the code performs becomes a parameter
describing what the wire returned (a parsed payload, an HTTP status, or a
raised exception).
-/

/-- Model of Python `str.upper()` (character-wise upper-casing; tickers are
ASCII so this agrees with CPython). -/
def pyUpper (s : String) : String :=
  ⟨s.data.map Char.toUpper⟩

/-- Lexicographic `≤` on character lists by code point, the order CPython
uses to compare `str` values. -/
def strLeAux : List Char → List Char → Bool
  | [], _ => true
  | _ :: _, [] => false
  | a :: as, b :: bs =>
    if a.toNat < b.toNat then true
    else if b.toNat < a.toNat then false
    else strLeAux as bs

/-- Model of Python string comparison `a <= b`. -/
def pyLe (a b : String) : Bool :=
  strLeAux a.data b.data

/-- Model of Python `str.zfill(w)` for non-negative content: left-pad with
zeros to width `w`. -/
def zfill (w : Nat) (s : String) : String :=
  String.mk (List.replicate (w - s.length) '0') ++ s

theorem strLeAux_refl (as : List Char) : strLeAux as as = true := by
  induction as with
  | nil => rfl
  | cons a as ih => simp [strLeAux, ih]

theorem strLeAux_total (as bs : List Char) :
    strLeAux as bs = true ∨ strLeAux bs as = true := by
  induction as generalizing bs with
  | nil => exact Or.inl rfl
  | cons a as ih =>
    cases bs with
    | nil => exact Or.inr rfl
    | cons b bs =>
      rcases lt_trichotomy a.toNat b.toNat with h | h | h
      · exact Or.inl (by simp [strLeAux, h])
      · have h1 : ¬ a.toNat < b.toNat := by simp [h]
        have h2 : ¬ b.toNat < a.toNat := by simp [h]
        rcases ih bs with hle | hle
        · exact Or.inl (by simp [strLeAux, h1, h2, hle])
        · exact Or.inr (by simp [strLeAux, h1, h2, hle])
      · exact Or.inr (by simp [strLeAux, h])

theorem strLeAux_trans {as bs cs : List Char}
    (h1 : strLeAux as bs = true) (h2 : strLeAux bs cs = true) :
    strLeAux as cs = true := by
  induction as generalizing bs cs with
  | nil => rfl
  | cons a as ih =>
    cases bs with
    | nil => simp [strLeAux] at h1
    | cons b bs =>
      cases cs with
      | nil => simp [strLeAux] at h2
      | cons c cs =>
        rcases lt_trichotomy a.toNat b.toNat with hab | hab | hab
        · rcases lt_trichotomy b.toNat c.toNat with hbc | hbc | hbc
          · exact (by simp [strLeAux, lt_trans hab hbc])
          · exact (by simp [strLeAux, hbc ▸ hab])
          · exfalso
            simp only [strLeAux] at h2
            rw [if_neg (by simp [le_of_lt hbc, not_lt]), if_pos hbc] at h2
            exact Bool.false_ne_true h2
        · rcases lt_trichotomy b.toNat c.toNat with hbc | hbc | hbc
          · exact (by simp [strLeAux, hab ▸ hbc])
          · have hac : a.toNat = c.toNat := hab.trans hbc
            have hax : ¬ a.toNat < c.toNat := by simp [hac]
            have hcx : ¬ c.toNat < a.toNat := by simp [hac]
            simp only [strLeAux] at h1 h2 ⊢
            rw [if_neg (by simp [hab]), if_neg (by simp [hab.symm])] at h1
            rw [if_neg (by simp [hbc]), if_neg (by simp [hbc.symm])] at h2
            rw [if_neg hax, if_neg hcx]
            exact ih h1 h2
          · exfalso
            simp only [strLeAux] at h2
            rw [if_neg (by simp [le_of_lt hbc, not_lt]), if_pos hbc] at h2
            exact Bool.false_ne_true h2
        · exfalso
          simp only [strLeAux] at h1
          rw [if_neg (by simp [le_of_lt hab, not_lt]), if_pos hab] at h1
          exact Bool.false_ne_true h1

theorem strLeAux_antisymm {as bs : List Char}
    (h1 : strLeAux as bs = true) (h2 : strLeAux bs as = true) : as = bs := by
  induction as generalizing bs with
  | nil =>
    cases bs with
    | nil => rfl
    | cons b bs => simp [strLeAux] at h2
  | cons a as ih =>
    cases bs with
    | nil => simp [strLeAux] at h1
    | cons b bs =>
      rcases lt_trichotomy a.toNat b.toNat with hab | hab | hab
      · exfalso
        simp only [strLeAux] at h2
        rw [if_neg (by simp [le_of_lt hab, not_lt]), if_pos hab] at h2
        exact Bool.false_ne_true h2
      · have hab' : a = b := Char.ext (UInt32.ext hab)
        simp only [strLeAux] at h1 h2
        rw [if_neg (by simp [hab]), if_neg (by simp [hab.symm])] at h1
        rw [if_neg (by simp [hab.symm]), if_neg (by simp [hab])] at h2
        exact hab' ▸ congrArg (a :: ·) (ih h1 h2)
      · exfalso
        simp only [strLeAux] at h1
        rw [if_neg (by simp [le_of_lt hab, not_lt]), if_pos hab] at h1
        exact Bool.false_ne_true h1

theorem pyLe_refl (s : String) : pyLe s s = true :=
  strLeAux_refl s.data

theorem pyLe_total (a b : String) : pyLe a b = true ∨ pyLe b a = true :=
  strLeAux_total a.data b.data

theorem pyLe_trans {a b c : String}
    (h1 : pyLe a b = true) (h2 : pyLe b c = true) : pyLe a c = true :=
  strLeAux_trans h1 h2

theorem pyLe_antisymm {a b : String}
    (h1 : pyLe a b = true) (h2 : pyLe b a = true) : a = b := by
  cases a with
  | mk as =>
    cases b with
    | mk bs => exact congrArg String.mk (strLeAux_antisymm h1 h2)

theorem zfill_length {w : Nat} {s : String} (h : s.length ≤ w) :
    (zfill w s).length = w := by
  simp only [zfill, String.length_append]
  have h0 : (String.mk (List.replicate (w - s.length) '0')).length
      = w - s.length := by
    rw [String.length_mk, List.length_replicate]
  omega

namespace SEC

/-- One entry of the SEC ticker directory (`company_tickers.json`).  The
`ticker` key is read with `entry.get("ticker", "")`, so it may be absent;
`cik_str` is read with `entry["cik_str"]`, so a matching entry lacking it
raises, which `_get_cik` converts to `None`. -/
structure TickerEntry where
  ticker : Option String
  cik : Option Nat

/-- Outcome of the directory fetch plus JSON decode performed by
`_get_cik`: either a parsed directory (its `dict.values()` in iteration
order) or a raised exception (network error or malformed payload). -/
inductive Fetch (α : Type) where
  | ok (v : α)
  | fail (msg : String)

/-- The scan loop of `_get_cik`: first entry whose upper-cased ticker
matches wins; its `cik_str` is stringified and zero-filled to 10 digits.
A matching entry without `cik_str` raises `KeyError`, which the enclosing
`except` turns into `None` (modelled by stopping with `none`). -/
def findCik : List TickerEntry → String → Option String
  | [], _ => none
  | e :: rest, t =>
    if pyUpper (e.ticker.getD "") == t then
      e.cik.map (fun c => zfill 10 (toString c))
    else
      findCik rest t

/-- Model of `SECFetcher._get_cik`: total (never raises); any fetch or
decode failure, and an unmatched ticker, yield `none`. -/
def getCik (dir : Fetch (List TickerEntry)) (ticker : String) : Option String :=
  match dir with
  | .fail _ => none
  | .ok entries => findCik entries (pyUpper ticker)

/-- One XBRL observation as consumed by `get_filing`; the code reads
`x.get("end", "")` and `x.get("val")`, so both keys may be absent. -/
structure Obs where
  endDate : Option String
  val : Option Int
deriving DecidableEq

/-- The sort key used by `get_filing`: `lambda x: x.get("end", "")`. -/
def obsKey (o : Obs) : String :=
  o.endDate.getD ""

/-- The ordering realised by `sorted(data, key=..., reverse=True)`:
`a` precedes `b` when `a`'s key is at least `b`'s key.  Python's `sorted`
is stable; `List.insertionSort` with this relation is stable in the same
sense. -/
def obsDesc (a b : Obs) : Prop :=
  pyLe (obsKey b) (obsKey a) = true

instance : DecidableRel obsDesc := fun _ _ =>
  inferInstanceAs (Decidable (_ = true))

instance : IsTotal Obs obsDesc :=
  ⟨fun a b => (pyLe_total (obsKey b) (obsKey a)).imp id id⟩

instance : IsTrans Obs obsDesc :=
  ⟨fun _ _ _ h1 h2 => pyLe_trans h2 h1⟩

/-- The fact-selection step of `get_filing`, performed once for each of the
four facts: if the observation list is non-empty, sort it by `end`
descending and return the head's `val` (itself possibly absent). -/
def selectLatest (obs : List Obs) : Option Int :=
  if obs.isEmpty then none
  else
    match List.insertionSort obsDesc obs with
    | [] => none
    | x :: _ => x.val

/-- The `filings.recent` arrays of a submissions payload, each read with a
`.get(key, [])` default, plus the company `name` read with
`data.get("name", ticker)`. -/
structure Submissions where
  name : Option String
  form : List String
  filingDate : List String
  accessionNumber : List String
  primaryDocument : List String

/-- The `latest_filing` sub-record built by `get_filing`. -/
structure LatestFiling where
  form : String
  filing_date : Option String
  accession_number : Option String
  primary_document : Option String
deriving DecidableEq

/-- Scan of the `form` array: the first index whose form equals the
requested type exactly provides the filing metadata; the parallel arrays
are indexed defensively (`arr[i] if i < len(arr) else None`). -/
def findLatestFiling (sub : Submissions) (ftype : String) : Option LatestFiling :=
  match sub.form.findIdx? (· == ftype) with
  | none => none
  | some i =>
    some { form := ftype
         , filing_date := sub.filingDate.get? i
         , accession_number := sub.accessionNumber.get? i
         , primary_document := sub.primaryDocument.get? i }

/-- The four observation lists `get_filing` drills to inside the XBRL
company-facts payload; every missing intermediate key defaults to `[]`. -/
structure Facts where
  shares : List Obs
  assets : List Obs
  liabilities : List Obs
  equity : List Obs

/-- Outcome of one `session.get` plus optional JSON decode: a raised
transport exception, or an HTTP response with a status code and a body
(`none` when `.json()` on it would raise). -/
inductive FetchR (α : Type) where
  | exn (msg : String)
  | http (status : Nat) (body : Option α)

/-- The record returned by a non-error `get_filing`. -/
structure FilingRecord where
  ticker : String
  company_name : String
  cik : String
  latest_filing : Option LatestFiling
  shares_outstanding : Option Int
  total_assets : Option Int
  total_liabilities : Option Int
  stockholders_equity : Option Int
  sec_url : String
deriving DecidableEq

/-- `get_filing` returns either an `{"error": ...}` dict or a filing
record. -/
inductive FilingOut where
  | error (msg : String)
  | record (r : FilingRecord)
deriving DecidableEq

/-- The wire environment `get_filing` runs against: the ticker directory
(for `_get_cik`), the submissions endpoint and the company-facts
endpoint. -/
structure Env where
  tickersDir : Fetch (List TickerEntry)
  submissions : FetchR Submissions
  factsResp : FetchR Facts

/-- The URL `get_filing` constructs for the returned record. -/
def secUrl (cik ftype : String) : String :=
  "https://www.sec.gov/cgi-bin/browse-edgar?action=getcompany&CIK=" ++ cik
    ++ "&type=" ++ ftype

/-- Model of `SECFetcher.get_filing`.  `requests` raises for a 4xx/5xx
submissions status only because of the explicit `raise_for_status()`;
the facts response has no such call and is tested against 200 instead, so
a non-200 facts status leaves all four facts `None`.  A transport
exception on either fetch propagates to the outer handlers, producing an
error dict. -/
def getFiling (env : Env) (ticker : String) (ftype : String) : FilingOut :=
  match getCik env.tickersDir ticker with
  | none => .error ("Could not find CIK for " ++ ticker)
  | some cik =>
    match env.submissions with
    | .exn msg => .error ("Failed to fetch SEC data: " ++ msg)
    | .http st body =>
      if 400 ≤ st then
        .error ("Failed to fetch SEC data: HTTPError for status " ++ toString st)
      else
        match body with
        | none => .error "Error processing SEC data: invalid JSON"
        | some sub =>
          let companyName := sub.name.getD ticker
          let latest := findLatestFiling sub ftype
          match env.factsResp with
          | .exn msg => .error ("Failed to fetch SEC data: " ++ msg)
          | .http st2 fbody =>
            if st2 == 200 then
              match fbody with
              | none => .error "Error processing SEC data: invalid JSON"
              | some facts =>
                .record { ticker := pyUpper ticker
                        , company_name := companyName
                        , cik := cik
                        , latest_filing := latest
                        , shares_outstanding := selectLatest facts.shares
                        , total_assets := selectLatest facts.assets
                        , total_liabilities := selectLatest facts.liabilities
                        , stockholders_equity := selectLatest facts.equity
                        , sec_url := secUrl cik ftype }
            else
              .record { ticker := pyUpper ticker
                      , company_name := companyName
                      , cik := cik
                      , latest_filing := latest
                      , shares_outstanding := none
                      , total_assets := none
                      , total_liabilities := none
                      , stockholders_equity := none
                      , sec_url := secUrl cik ftype }

end SEC

/-- On a non-empty observation list the selection step returns the `val`
of an observation whose `end` key dominates every other `end` key in the
list. -/
theorem selectLatest_spec (l : List SEC.Obs) (hne : l ≠ []) :
    ∃ o ∈ l, SEC.selectLatest l = o.val ∧
      ∀ o' ∈ l, pyLe (SEC.obsKey o') (SEC.obsKey o) = true := by
  have hempty : l.isEmpty = false := by
    cases l with
    | nil => exact absurd rfl hne
    | cons a as => rfl
  have hperm : (List.insertionSort SEC.obsDesc l).Perm l :=
    List.perm_insertionSort SEC.obsDesc l
  have hsorted : List.Sorted SEC.obsDesc (List.insertionSort SEC.obsDesc l) :=
    List.sorted_insertionSort SEC.obsDesc l
  cases hs : List.insertionSort SEC.obsDesc l with
  | nil =>
    exfalso
    apply hne
    have h0 := hperm
    rw [hs] at h0
    exact h0.symm.eq_nil
  | cons x rest =>
    refine ⟨x, ?_, ?_, ?_⟩
    · exact (hs ▸ hperm).mem_iff.mp (List.mem_cons_self x rest)
    · simp [SEC.selectLatest, hempty, hs]
    · intro o' ho'
      have ho'sorted : o' ∈ x :: rest := (hs ▸ hperm).mem_iff.mpr ho'
      rcases List.mem_cons.mp ho'sorted with heq | htail
      · exact heq ▸ pyLe_refl _
      · exact List.rel_of_sorted_cons (hs ▸ hsorted) o' htail

/-- With pairwise-distinct `end` keys the selection step is invariant
under permutation of the observation list. -/
theorem selectLatest_perm_invariant (l l' : List SEC.Obs)
    (hperm : l.Perm l') (hnd : (l.map SEC.obsKey).Nodup) :
    SEC.selectLatest l = SEC.selectLatest l' := by
  by_cases hl : l = []
  · have hl' : l' = [] := by
      have h0 := hperm
      rw [hl] at h0
      exact h0.symm.eq_nil
    rw [hl, hl']
  · have hne' : l' ≠ [] := by
      intro h
      apply hl
      have h0 := hperm
      rw [h] at h0
      exact h0.eq_nil
    obtain ⟨o, hol, hov, homax⟩ := selectLatest_spec l hl
    obtain ⟨o', hol', hov', homax'⟩ := selectLatest_spec l' hne'
    have ho'l : o' ∈ l := hperm.mem_iff.mpr hol'
    have hol2 : o ∈ l' := hperm.mem_iff.mp hol
    have h1 : pyLe (SEC.obsKey o') (SEC.obsKey o) = true := homax o' ho'l
    have h2 : pyLe (SEC.obsKey o) (SEC.obsKey o') = true := homax' o hol2
    have hkeys : SEC.obsKey o' = SEC.obsKey o := pyLe_antisymm h1 h2
    have : o = o' := List.inj_on_of_nodup_map hnd hol ho'l hkeys.symm
    rw [hov, hov', this]

/-- C3: for every list of XBRL observations, each fact-selection step of
`get_filing` returns the `val` of the observation whose `end` string is
lexicographically maximal; for lists with pairwise-distinct `end` strings
the result is invariant under permutation of the input; an empty
observation list yields null. -/
theorem getFiling_fact_selection (l l' : List SEC.Obs) (hperm : l.Perm l')
    (hnd : (l.map SEC.obsKey).Nodup) :
    SEC.selectLatest l = SEC.selectLatest l' ∧
    (∀ o ∈ l, (∀ o' ∈ l, pyLe (SEC.obsKey o') (SEC.obsKey o) = true) →
      SEC.selectLatest l = o.val) ∧
    SEC.selectLatest ([] : List SEC.Obs) = none := by
  refine ⟨selectLatest_perm_invariant l l' hperm hnd, ?_, rfl⟩
  intro o hol hmax
  have hne : l ≠ [] := by
    intro h
    rw [h] at hol
    exact absurd hol (List.not_mem_nil o)
  obtain ⟨o₀, ho₀l, hov, homax⟩ := selectLatest_spec l hne
  have h1 : pyLe (SEC.obsKey o) (SEC.obsKey o₀) = true := homax o hol
  have h2 : pyLe (SEC.obsKey o₀) (SEC.obsKey o) = true := hmax o₀ ho₀l
  have hkeys : SEC.obsKey o = SEC.obsKey o₀ := pyLe_antisymm h1 h2
  have : o = o₀ := List.inj_on_of_nodup_map hnd hol ho₀l hkeys
  rw [hov, this]

/-- Witness for C3 at the specification's example: observations dated
2025-03-31, 2025-09-30, 2025-06-30 in that order yield the 2025-09-30
value, for the given order and for a permutation of it. -/
theorem getFiling_fact_selection_witness :
    SEC.selectLatest
        [⟨some "2025-03-31", some 15700000000⟩,
         ⟨some "2025-09-30", some 15500000000⟩,
         ⟨some "2025-06-30", some 15600000000⟩] =
      SEC.selectLatest
        [⟨some "2025-09-30", some 15500000000⟩,
         ⟨some "2025-06-30", some 15600000000⟩,
         ⟨some "2025-03-31", some 15700000000⟩] ∧
    SEC.selectLatest
        [⟨some "2025-03-31", some 15700000000⟩,
         ⟨some "2025-09-30", some 15500000000⟩,
         ⟨some "2025-06-30", some 15600000000⟩] = some 15500000000 := by
  constructor
  · exact (getFiling_fact_selection
      [⟨some "2025-03-31", some 15700000000⟩,
       ⟨some "2025-09-30", some 15500000000⟩,
       ⟨some "2025-06-30", some 15600000000⟩]
      [⟨some "2025-09-30", some 15500000000⟩,
       ⟨some "2025-06-30", some 15600000000⟩,
       ⟨some "2025-03-31", some 15700000000⟩]
      (by decide) (by decide)).1
  · exact (getFiling_fact_selection
      [⟨some "2025-03-31", some 15700000000⟩,
       ⟨some "2025-09-30", some 15500000000⟩,
       ⟨some "2025-06-30", some 15600000000⟩]
      [⟨some "2025-03-31", some 15700000000⟩,
       ⟨some "2025-09-30", some 15500000000⟩,
       ⟨some "2025-06-30", some 15600000000⟩]
      (by decide) (by decide)).2.1
      ⟨some "2025-09-30", some 15500000000⟩ (by decide) (by decide)

/-- If no directory entry matches the upper-cased ticker, the scan loop
falls through to `None`. -/
theorem findCik_eq_none_of_no_match (entries : List SEC.TickerEntry)
    (t : String)
    (h : ∀ e ∈ entries, pyUpper (e.ticker.getD "") ≠ t) :
    SEC.findCik entries t = none := by
  induction entries with
  | nil => rfl
  | cons e rest ih =>
    have hne : pyUpper (e.ticker.getD "") ≠ t :=
      h e (List.mem_cons_self e rest)
    have hbeq : (pyUpper (e.ticker.getD "") == t) = false :=
      beq_false_of_ne hne
    simp only [SEC.findCik, hbeq, Bool.false_eq_true, if_false]
    exact ih (fun e' he' => h e' (List.mem_cons_of_mem e he'))

/-- Whenever the scan loop yields an identifier, it is the zero-filled
decimal representation of some matching entry's `cik_str`. -/
theorem findCik_eq_some (entries : List SEC.TickerEntry) (t c : String)
    (h : SEC.findCik entries t = some c) :
    ∃ e ∈ entries, ∃ n, e.cik = some n ∧ c = zfill 10 (toString n) := by
  induction entries with
  | nil => exact absurd h (by simp [SEC.findCik])
  | cons e rest ih =>
    by_cases hm : (pyUpper (e.ticker.getD "") == t) = true
    · rw [SEC.findCik, if_pos hm] at h
      cases hc : e.cik with
      | none => rw [hc] at h; exact absurd h (by simp)
      | some n =>
        rw [hc] at h
        exact ⟨e, List.mem_cons_self e rest, n, hc,
          (Option.some_inj.mp h).symm⟩
    · rw [SEC.findCik, if_neg hm] at h
      obtain ⟨e', he', n, hn, hz⟩ := ih h
      exact ⟨e', List.mem_cons_of_mem e he', n, hn, hz⟩

/-- C6: `_get_cik` is case-insensitive in its ticker argument, returns the
numeric CIK zero-padded to 10 digits (exactly 10 characters whenever the
CIK has at most 10 decimal digits), and never raises: a failed or
malformed directory fetch and an unmatched ticker each yield `None`. -/
theorem getCik_case_insensitive_zero_padded :
    (∀ dir t₁ t₂, pyUpper t₁ = pyUpper t₂ →
      SEC.getCik dir t₁ = SEC.getCik dir t₂) ∧
    (∀ msg t, SEC.getCik (.fail msg) t = none) ∧
    (∀ entries t, (∀ e ∈ entries, pyUpper (e.ticker.getD "") ≠ pyUpper t) →
      SEC.getCik (.ok entries) t = none) ∧
    (∀ entries t c, SEC.getCik (.ok entries) t = some c →
      ∃ e ∈ entries, ∃ n, e.cik = some n ∧ c = zfill 10 (toString n) ∧
        (n < 10 ^ 10 → c.length = 10)) := by
  refine ⟨?_, fun _ _ => rfl, ?_, ?_⟩
  · intro dir t₁ t₂ h
    cases dir with
    | fail msg => rfl
    | ok entries => simp only [SEC.getCik, h]
  · intro entries t h
    exact findCik_eq_none_of_no_match entries (pyUpper t) h
  · intro entries t c h
    obtain ⟨e, he, n, hn, hz⟩ := findCik_eq_some entries (pyUpper t) c h
    refine ⟨e, he, n, hn, hz, ?_⟩
    intro hlt
    rw [hz]
    apply zfill_length
    exact Nat.repr_length n 10 (by norm_num) hlt

/-- Witness for C6: on a concrete directory, tickers `aapl` and `AaPl`
resolve to the same 10-character identifier `0000320193`, and an unknown
ticker resolves to `None`. -/
theorem getCik_case_insensitive_zero_padded_witness :
    SEC.getCik (.ok [⟨some "AAPL", some 320193⟩]) "aapl" =
      SEC.getCik (.ok [⟨some "AAPL", some 320193⟩]) "AaPl" ∧
    SEC.getCik (.ok [⟨some "AAPL", some 320193⟩]) "aapl" = some "0000320193" ∧
    SEC.getCik (.ok [⟨some "AAPL", some 320193⟩]) "ZZZZ" = none ∧
    ∃ e ∈ [(⟨some "AAPL", some 320193⟩ : SEC.TickerEntry)], ∃ n,
      e.cik = some n ∧ "0000320193" = zfill 10 (toString n) ∧
      (n < 10 ^ 10 → ("0000320193" : String).length = 10) := by
  refine ⟨?_, by decide, ?_, ?_⟩
  · exact getCik_case_insensitive_zero_padded.1
      (.ok [⟨some "AAPL", some 320193⟩]) "aapl" "AaPl" (by decide)
  · exact (getCik_case_insensitive_zero_padded.2.2.1
      [⟨some "AAPL", some 320193⟩] "ZZZZ") (by decide)
  · exact getCik_case_insensitive_zero_padded.2.2.2
      [⟨some "AAPL", some 320193⟩] "aapl" "0000320193" (by decide)

/-- C1 counterexample: with CIK resolution and the submissions fetch
succeeding, a company-facts fetch that raises a transport exception does
NOT produce a record with null facts — `get_filing` returns an
`{"error": ...}` descriptor, because the exception propagates to the
outer `except requests.exceptions.RequestException` handler. -/
theorem getFiling_facts_exception_returns_error :
    SEC.getFiling
      { tickersDir := .ok [⟨some "AAPL", some 320193⟩]
      , submissions := .http 200 (some
          { name := some "Apple Inc."
          , form := ["10-Q"]
          , filingDate := ["2025-10-31"]
          , accessionNumber := ["0000320193-25-000001"]
          , primaryDocument := ["filing-10q.htm"] })
      , factsResp := .exn "timeout" }
      "AAPL" "10-Q"
      = .error "Failed to fetch SEC data: timeout" := by
  decide

/-- C1 (amended): whenever CIK resolution and the submissions fetch
succeed and the company-facts fetch RETURNS an HTTP response with any
status other than 200 (404 included), `get_filing` returns a record in
which the four numeric facts are null while every other field is
populated — never an error descriptor. -/
theorem getFiling_facts_non200_partial_record
    (env : SEC.Env) (ticker ftype cik : String) (st st2 : Nat)
    (sub : SEC.Submissions) (fb : Option SEC.Facts)
    (hcik : SEC.getCik env.tickersDir ticker = some cik)
    (hsub : env.submissions = .http st (some sub))
    (hstok : st < 400)
    (hfacts : env.factsResp = .http st2 fb)
    (hst2 : st2 ≠ 200) :
    SEC.getFiling env ticker ftype =
      .record { ticker := pyUpper ticker
              , company_name := sub.name.getD ticker
              , cik := cik
              , latest_filing := SEC.findLatestFiling sub ftype
              , shares_outstanding := none
              , total_assets := none
              , total_liabilities := none
              , stockholders_equity := none
              , sec_url := SEC.secUrl cik ftype } := by
  have hbeq : (st2 == 200) = false := beq_false_of_ne hst2
  simp only [SEC.getFiling, hcik, hsub, hfacts, hbeq, Bool.false_eq_true,
    if_false, if_neg (by omega : ¬ 400 ≤ st)]

/-- Witness for the amended C1 at the 404 case: the facts endpoint
answers 404 and `get_filing` still returns a fully-populated record with
all four facts null. -/
theorem getFiling_facts_non200_partial_record_witness :
    SEC.getFiling
      { tickersDir := .ok [⟨some "AAPL", some 320193⟩]
      , submissions := .http 200 (some
          { name := some "Apple Inc."
          , form := ["10-Q"]
          , filingDate := ["2025-10-31"]
          , accessionNumber := ["0000320193-25-000001"]
          , primaryDocument := ["filing-10q.htm"] })
      , factsResp := .http 404 none }
      "AAPL" "10-Q"
      = .record { ticker := "AAPL"
                , company_name := "Apple Inc."
                , cik := "0000320193"
                , latest_filing := some
                    { form := "10-Q"
                    , filing_date := some "2025-10-31"
                    , accession_number := some "0000320193-25-000001"
                    , primary_document := some "filing-10q.htm" }
                , shares_outstanding := none
                , total_assets := none
                , total_liabilities := none
                , stockholders_equity := none
                , sec_url := SEC.secUrl "0000320193" "10-Q" } := by
  have h := getFiling_facts_non200_partial_record
    { tickersDir := .ok [⟨some "AAPL", some 320193⟩]
    , submissions := .http 200 (some
        { name := some "Apple Inc."
        , form := ["10-Q"]
        , filingDate := ["2025-10-31"]
        , accessionNumber := ["0000320193-25-000001"]
        , primaryDocument := ["filing-10q.htm"] })
    , factsResp := .http 404 none }
    "AAPL" "10-Q" "0000320193" 200 404
    { name := some "Apple Inc."
    , form := ["10-Q"]
    , filingDate := ["2025-10-31"]
    , accessionNumber := ["0000320193-25-000001"]
    , primaryDocument := ["filing-10q.htm"] }
    none (by decide) rfl (by decide) rfl (by decide)
  rw [h]
  decide

namespace App

/-- JSON-schema fragment for one property of a tool's input schema. -/
structure PropSchema where
  type : String
  description : String
  enumVals : Option (List String) := none
deriving DecidableEq

/-- A tool's `input_schema` object. -/
structure InputSchema where
  type : String
  properties : List (String × PropSchema)
  required : List String
deriving DecidableEq

/-- One entry of the `TOOLS` list handed to the model. -/
structure ToolDef where
  name : String
  description : String
  input_schema : InputSchema
deriving DecidableEq

/-- The `TOOLS` catalog of `app.py`, transcribed entry by entry. -/
def TOOLS : List ToolDef :=
  [ { name := "get_stock_quote"
    , description :=
        "Get the current stock price, market cap, and basic quote data for a ticker symbol"
    , input_schema :=
        { type := "object"
        , properties :=
            [("ticker",
              { type := "string"
              , description :=
                  "The stock ticker symbol (e.g., AAPL, GOOGL, AMZN)" })]
        , required := ["ticker"] } }
  , { name := "get_company_info"
    , description :=
        "Get basic company information including name, sector, industry, and description"
    , input_schema :=
        { type := "object"
        , properties :=
            [("ticker",
              { type := "string"
              , description := "The stock ticker symbol" })]
        , required := ["ticker"] } }
  , { name := "get_financial_statements"
    , description :=
        "Get income statement, balance sheet, and cash flow statement data for a company. Returns quarterly and annual data."
    , input_schema :=
        { type := "object"
        , properties :=
            [("ticker",
              { type := "string"
              , description := "The stock ticker symbol" }),
             ("statement_type",
              { type := "string"
              , description := "Type of financial statement to retrieve"
              , enumVals := some ["income", "balance", "cashflow", "all"] })]
        , required := ["ticker", "statement_type"] } }
  , { name := "get_sec_filing"
    , description :=
        "Get the latest SEC filing (10-K or 10-Q) for a company including shares outstanding and key financial data"
    , input_schema :=
        { type := "object"
        , properties :=
            [("ticker",
              { type := "string"
              , description := "The stock ticker symbol" }),
             ("filing_type",
              { type := "string"
              , description := "Type of SEC filing"
              , enumVals := some ["10-K", "10-Q"] })]
        , required := ["ticker", "filing_type"] } }
  , { name := "get_key_metrics"
    , description :=
        "Get key financial metrics and ratios for a company including P/E, EV/EBITDA, margins, etc."
    , input_schema :=
        { type := "object"
        , properties :=
            [("ticker",
              { type := "string"
              , description := "The stock ticker symbol" })]
        , required := ["ticker"] } }
  ]

/-- `dict.get(key, default)` over the argument mapping of a tool call. -/
def argGet (input : List (String × String)) (key dflt : String) : String :=
  ((input.find? (fun kv => kv.1 == key)).map (fun kv => kv.2)).getD dflt

/-- What `process_tool_call` does with a named call: which client method
it invokes with which arguments, or the error dict it returns.  The
client methods themselves perform network fetches and are modelled by
their call descriptors. -/
inductive Dispatch where
  | quote (ticker : String)
  | companyInfo (ticker : String)
  | financials (ticker : String) (statementType : String)
  | filing (ticker : String) (filingType : String)
  | keyMetrics (ticker : String)
  | unknownTool (errorMsg : String)
deriving DecidableEq

/-- Model of `process_tool_call` in `app.py`: upper-cases the (defaulted)
ticker, dispatches on the tool name over five branches, and answers any
other name with an error dict.  Total: never raises. -/
def processToolCall (toolName : String) (input : List (String × String)) :
    Dispatch :=
  let ticker := pyUpper (argGet input "ticker" "")
  if toolName == "get_stock_quote" then .quote ticker
  else if toolName == "get_company_info" then .companyInfo ticker
  else if toolName == "get_financial_statements" then
    .financials ticker (argGet input "statement_type" "all")
  else if toolName == "get_sec_filing" then
    .filing ticker (argGet input "filing_type" "10-Q")
  else if toolName == "get_key_metrics" then .keyMetrics ticker
  else .unknownTool ("Unknown tool: " ++ toolName)

end App

/-- C5: for every tool name outside the catalog and every argument
mapping, the dispatcher returns the error dict
`{"error": "Unknown tool: <name>"}` naming that exact tool, and (being a
total function) never raises. -/
theorem processToolCall_unknown_tool (toolName : String)
    (input : List (String × String))
    (h : toolName ∉ App.TOOLS.map (fun t => t.name)) :
    App.processToolCall toolName input =
      .unknownTool ("Unknown tool: " ++ toolName) := by
  have hmap : App.TOOLS.map (fun t => t.name) =
      ["get_stock_quote", "get_company_info", "get_financial_statements",
       "get_sec_filing", "get_key_metrics"] := by decide
  rw [hmap] at h
  simp only [List.mem_cons, List.not_mem_nil, or_false, not_or] at h
  obtain ⟨h1, h2, h3, h4, h5⟩ := h
  simp only [App.processToolCall, beq_false_of_ne h1, beq_false_of_ne h2,
    beq_false_of_ne h3, beq_false_of_ne h4, beq_false_of_ne h5,
    Bool.false_eq_true, if_false]

/-- Witness for C5 at the test suite's input: the name
`nonexistent_tool` is not in the catalog and yields the expected error
dict. -/
theorem processToolCall_unknown_tool_witness :
    "nonexistent_tool" ∉ App.TOOLS.map (fun t => t.name) ∧
    App.processToolCall "nonexistent_tool" [("ticker", "AAPL")] =
      .unknownTool "Unknown tool: nonexistent_tool" := by
  constructor
  · decide
  · exact processToolCall_unknown_tool "nonexistent_tool"
      [("ticker", "AAPL")] (by decide)

/-- C2 (code evaluated at the failing input): the catalog defined in
`app.py` contains five tools, not six — `get_realtime_quote`, which the
spec counts and the test suite dispatches to a Finnhub client, is missing
from both the catalog and the dispatcher, which answers it with the
unknown-tool error dict. -/
theorem tools_catalog_has_five_entries :
    App.TOOLS.length = 5 ∧
    App.TOOLS.map (fun t => t.name) =
      ["get_stock_quote", "get_company_info", "get_financial_statements",
       "get_sec_filing", "get_key_metrics"] ∧
    "get_realtime_quote" ∉ App.TOOLS.map (fun t => t.name) ∧
    App.processToolCall "get_realtime_quote" [("ticker", "AAPL")] =
      .unknownTool "Unknown tool: get_realtime_quote" := by
  refine ⟨rfl, by decide, by decide, rfl⟩

namespace App

/-- A content block of a model response: a tool-invocation request or a
plain text segment (the code distinguishes them by `block.type` and by
`hasattr(block, "text")`). -/
inductive Block where
  | toolUse (name : String) (input : List (String × String)) (id : String)
  | text (s : String)
deriving DecidableEq

/-- One response from the generative model. -/
structure ModelResponse where
  stop_reason : String
  content : List Block
deriving DecidableEq

/-- A serialized tool-result block appended to the conversation. -/
structure ToolResultBlock where
  tool_use_id : String
  content : String
deriving DecidableEq

/-- Content of one conversation turn: the seeded text prompt, a raw
assistant response, or the collected tool results. -/
inductive MsgContent where
  | text (s : String)
  | blocks (bs : List Block)
  | results (rs : List ToolResultBlock)
deriving DecidableEq

/-- One conversation turn. -/
structure Message where
  role : String
  content : MsgContent
deriving DecidableEq

/-- The tool-result blocks collected for one tool-use response:
one per `tool_use` block, tagged with its id and carrying the serialized
result.  `exec` stands for `json.dumps(process_tool_call(...), indent=2)`
— what the clients return depends on the network, so the composite is an
oracle parameter used identically by both loop variants. -/
def toolResultsOf (exec : String → List (String × String) → String)
    (bs : List Block) : List ToolResultBlock :=
  bs.filterMap fun b =>
    match b with
    | .toolUse n i id => some { tool_use_id := id, content := exec n i }
    | .text _ => none

/-- Final-response extraction of `run_analysis`: concatenate the `text`
of every block that has one. -/
def finalText (bs : List Block) : String :=
  bs.foldl
    (fun acc b =>
      match b with
      | .text s => acc ++ s
      | .toolUse _ _ _ => acc) ""

/-- The seeded user prompt of `run_analysis`. -/
def analysisPrompt (ticker : String) : String :=
  "Analyze " ++ pyUpper ticker ++ " using the Shkreli Method.\n\nFirst, gather all necessary data using the available tools:\n1. Get the current stock quote\n2. Get company info\n3. Get all financial statements (income, balance, cashflow)\n4. Get the latest SEC filing (10-Q) for shares outstanding\n5. Get key metrics\n\nThen perform the full analysis following all 5 phases and provide your verdict.\n\nBe thorough and use real numbers from the data. If any data is missing, note it and work with what you have."

/-- The seeded user prompt of `run_analysis_streaming` — the source text
carries two trailing spaces on the company-info line. -/
def streamingPrompt (ticker : String) : String :=
  "Analyze " ++ pyUpper ticker ++ " using the Shkreli Method.\n\nFirst, gather all necessary data using the available tools:\n1. Get the current stock quote\n2. Get company info  \n3. Get all financial statements (income, balance, cashflow)\n4. Get the latest SEC filing (10-Q) for shares outstanding\n5. Get key metrics\n\nThen perform the full analysis following all 5 phases and provide your verdict.\n\nBe thorough and use real numbers from the data. If any data is missing, note it and work with what you have."

/-- Initial conversation of `run_analysis`. -/
def initMessages (ticker : String) : List Message :=
  [{ role := "user", content := .text (analysisPrompt ticker) }]

/-- Initial conversation of `run_analysis_streaming`. -/
def initMessagesStreaming (ticker : String) : List Message :=
  [{ role := "user", content := .text (streamingPrompt ticker) }]

/-- The two turns appended after a tool-use response: the raw assistant
content and the user turn carrying the tool results. -/
def appendTurns (exec : String → List (String × String) → String)
    (messages : List Message) (bs : List Block) : List Message :=
  messages ++
    [{ role := "assistant", content := .blocks bs },
     { role := "user", content := .results (toolResultsOf exec bs) }]

/-- Model of the agentic loop of `run_analysis`.  The model's successive
responses are supplied as a list consumed one per iteration; `none` means
the loop would consult the model again but the supplied trace is
exhausted. -/
def runAnalysis (exec : String → List (String × String) → String) :
    List ModelResponse → List Message → Option String
  | [], _ => none
  | r :: rest, messages =>
    if r.stop_reason == "tool_use" then
      runAnalysis exec rest (appendTurns exec messages r.content)
    else
      some (finalText r.content)

/-- The server-push events emitted by `run_analysis_streaming` (the JSON
payloads of its `data: ...` frames). -/
inductive Event where
  | status (message : String)
  | content (text : String)
  | done
deriving DecidableEq

/-- The status events of one tool-use turn: the code emits
`f"Fetching {block.name}..."` for every tool-use block, whatever the
name. -/
def statusEventsOf (bs : List Block) : List Event :=
  bs.filterMap fun b =>
    match b with
    | .toolUse n _ _ => some (.status ("Fetching " ++ n ++ "..."))
    | .text _ => none

/-- The content events of the terminal turn: one per text block. -/
def contentEventsOf (bs : List Block) : List Event :=
  bs.filterMap fun b =>
    match b with
    | .text s => some (.content s)
    | .toolUse _ _ _ => none

/-- Model of `run_analysis_streaming`: the same loop as `run_analysis`
over the same supplied response trace, additionally emitting status
events per tool-use block, content events per terminal text block and a
final done event. -/
def runStreaming (exec : String → List (String × String) → String) :
    List ModelResponse → List Message → Option (List Event)
  | [], _ => none
  | r :: rest, messages =>
    if r.stop_reason == "tool_use" then
      (runStreaming exec rest (appendTurns exec messages r.content)).map
        (fun evs => statusEventsOf r.content ++ evs)
    else
      some (contentEventsOf r.content ++ [.done])

/-- Concatenation of the texts of the content events, in order. -/
def concatContent (evs : List Event) : String :=
  evs.foldl
    (fun acc e =>
      match e with
      | .content s => acc ++ s
      | .status _ => acc
      | .done => acc) ""

end App

/-- The event fold of `concatContent`, over an arbitrary accumulator. -/
theorem concatContent_foldl (evs : List App.Event) (acc : String) :
    evs.foldl
      (fun acc e =>
        match e with
        | .content s => acc ++ s
        | .status _ => acc
        | .done => acc) acc = acc ++ App.concatContent evs := by
  induction evs generalizing acc with
  | nil => simp [App.concatContent]
  | cons e evs ih =>
    cases e with
    | status m =>
      show evs.foldl _ acc = acc ++ App.concatContent (.status m :: evs)
      rw [ih acc]
      show acc ++ _ = acc ++ evs.foldl _ ""
      rw [ih ""]
      simp
    | content s =>
      show evs.foldl _ (acc ++ s) = acc ++ App.concatContent (.content s :: evs)
      rw [ih (acc ++ s)]
      show acc ++ s ++ _ = acc ++ evs.foldl _ ("" ++ s)
      rw [ih ("" ++ s)]
      simp [String.append_assoc]
    | done =>
      show evs.foldl _ acc = acc ++ App.concatContent (.done :: evs)
      rw [ih acc]
      show acc ++ _ = acc ++ evs.foldl _ ""
      rw [ih ""]
      simp

/-- The block fold of `finalText`, over an arbitrary accumulator. -/
theorem finalText_foldl (bs : List App.Block) (acc : String) :
    bs.foldl
      (fun acc b =>
        match b with
        | .text s => acc ++ s
        | .toolUse _ _ _ => acc) acc = acc ++ App.finalText bs := by
  induction bs generalizing acc with
  | nil => simp [App.finalText]
  | cons b bs ih =>
    cases b with
    | toolUse n i id =>
      show bs.foldl _ acc = acc ++ App.finalText (.toolUse n i id :: bs)
      rw [ih acc]
      show acc ++ _ = acc ++ bs.foldl _ ""
      rw [ih ""]
      simp
    | text s =>
      show bs.foldl _ (acc ++ s) = acc ++ App.finalText (.text s :: bs)
      rw [ih (acc ++ s)]
      show acc ++ s ++ _ = acc ++ bs.foldl _ ("" ++ s)
      rw [ih ("" ++ s)]
      simp [String.append_assoc]

theorem concatContent_append (xs ys : List App.Event) :
    App.concatContent (xs ++ ys) =
      App.concatContent xs ++ App.concatContent ys := by
  show (xs ++ ys).foldl _ "" = _
  rw [List.foldl_append, concatContent_foldl ys, concatContent_foldl xs ""]
  simp

/-- Status events carry no content text. -/
theorem concatContent_statusEvents (bs : List App.Block) :
    App.concatContent (App.statusEventsOf bs) = "" := by
  induction bs with
  | nil => rfl
  | cons b bs ih =>
    cases b with
    | toolUse n i id =>
      show App.concatContent (.status _ :: App.statusEventsOf bs) = ""
      show (App.statusEventsOf bs).foldl _ "" = ""
      exact ih
    | text s => exact ih

/-- The content events of a turn concatenate to exactly the text that the
non-streaming extraction produces for the same blocks. -/
theorem concatContent_contentEvents (bs : List App.Block) :
    App.concatContent (App.contentEventsOf bs) = App.finalText bs := by
  induction bs with
  | nil => rfl
  | cons b bs ih =>
    cases b with
    | toolUse n i id =>
      show App.concatContent (App.contentEventsOf bs) =
        App.finalText (.toolUse n i id :: bs)
      rw [ih]
      show App.finalText bs = bs.foldl _ ""
      rfl
    | text s =>
      show App.concatContent (.content s :: App.contentEventsOf bs) =
        App.finalText (.text s :: bs)
      show (App.contentEventsOf bs).foldl _ ("" ++ s) =
        bs.foldl _ ("" ++ s)
      rw [concatContent_foldl, finalText_foldl, ih]

/-- The streaming loop refines the non-streaming loop from ANY pair of
seed conversations: the supplied response trace alone determines both
results. -/
theorem runStreaming_refines_runAnalysis
    (exec : String → List (String × String) → String)
    (rs : List App.ModelResponse) (ms1 ms2 : List App.Message) :
    (App.runStreaming exec rs ms2).map App.concatContent =
      App.runAnalysis exec rs ms1 := by
  induction rs generalizing ms1 ms2 with
  | nil => rfl
  | cons r rest ih =>
    by_cases h : (r.stop_reason == "tool_use") = true
    · rw [App.runStreaming, App.runAnalysis, if_pos h, if_pos h,
        Option.map_map]
      have : App.concatContent ∘ (fun evs => App.statusEventsOf r.content ++ evs)
          = App.concatContent := by
        funext evs
        show App.concatContent (App.statusEventsOf r.content ++ evs) = _
        rw [concatContent_append, concatContent_statusEvents]
        simp
      rw [this]
      exact ih (App.appendTurns exec ms1 r.content)
        (App.appendTurns exec ms2 r.content)
    · rw [App.runStreaming, App.runAnalysis, if_neg h, if_neg h]
      show some (App.concatContent
        (App.contentEventsOf r.content ++ [.done])) = _
      rw [concatContent_append, concatContent_contentEvents]
      show some (App.finalText r.content ++ App.concatContent [.done]) = _
      simp [App.concatContent]

/-- C4 counterexample: the two loop variants do NOT start from the same
seeded conversation — the streaming prompt carries trailing whitespace on
its company-info line that the non-streaming prompt lacks. -/
theorem seeded_conversations_differ :
    App.initMessages "AAPL" ≠ App.initMessagesStreaming "AAPL" := by
  decide

/-- C4 (amended): for every response trace and every ticker, the
concatenation of the texts of the content events emitted by
`run_analysis_streaming` equals the string returned by `run_analysis` —
both walk the same state machine with the same tool dispatch and message
appending, each from its own seeded conversation. -/
theorem streaming_content_equals_analysis
    (exec : String → List (String × String) → String)
    (rs : List App.ModelResponse) (ticker : String) :
    (App.runStreaming exec rs (App.initMessagesStreaming ticker)).map
        App.concatContent =
      App.runAnalysis exec rs (App.initMessages ticker) :=
  runStreaming_refines_runAnalysis exec rs
    (App.initMessages ticker) (App.initMessagesStreaming ticker)

/-- C9 (code evaluated at the failing input): during a streaming turn the
status message for EVERY tool-use block — catalog tool or unknown name —
is the f-string `Fetching <tool name>...`; there is no per-tool label
table and no generic `Working...` fallback in `app.py`. -/
theorem streaming_status_messages_use_fstring :
    App.runStreaming (fun _ _ => "ok")
      [ { stop_reason := "tool_use"
        , content :=
            [ .toolUse "get_stock_quote" [("ticker", "AAPL")] "t1"
            , .toolUse "some_future_tool" [("ticker", "AAPL")] "t2" ] }
      , { stop_reason := "end_turn", content := [.text "Final analysis."] } ]
      (App.initMessagesStreaming "AAPL")
      = some
        [ .status "Fetching get_stock_quote..."
        , .status "Fetching some_future_tool..."
        , .content "Final analysis."
        , .done ] := by
  decide

namespace StockData

/-- Model of a Python float as far as the code observes it: either NaN
(the one value failing the self-equality test) or an exact numeric
value. -/
inductive PFloat where
  | nan
  | val (q : ℚ)
deriving DecidableEq

/-- A Python cell/field value as the converters observe it: `None`, a
plain int, float or string, or a numpy scalar wrapper (the values that
expose a native-scalar extraction `.item()`). -/
inductive PyValue where
  | noneV
  | int (n : ℤ)
  | float (f : PFloat)
  | str (s : String)
  | npInt (n : ℤ)
  | npFloat (f : PFloat)
deriving DecidableEq

/-- Whether a value exposes `.item()` (`hasattr(value, "item")`). -/
def hasItem : PyValue → Bool
  | .npInt _ => true
  | .npFloat _ => true
  | _ => false

/-- `.item()`: unwrap a numpy scalar to its plain native value. -/
def itemOf : PyValue → PyValue
  | .npInt n => .int n
  | .npFloat f => .float f
  | v => v

/-- Numeric reading of a value, when it has one. -/
def numVal : PyValue → Option ℚ
  | .int n => some (n : ℚ)
  | .float (.val q) => some q
  | .npInt n => some (n : ℚ)
  | .npFloat (.val q) => some q
  | _ => none

/-- Whether the value is NaN-valued (fails `value == value`). -/
def isNan : PyValue → Bool
  | .float .nan => true
  | .npFloat .nan => true
  | _ => false

/-- Python `==` restricted to the value shapes above: NaN compares
unequal to everything (itself included), numbers compare by value, other
values structurally. -/
def pyEqB (a b : PyValue) : Bool :=
  if isNan a || isNan b then false
  else
    match numVal a, numVal b with
    | some x, some y => x == y
    | _, _ =>
      match a, b with
      | .str s, .str t => s == t
      | .noneV, .noneV => true
      | _, _ => false

/-- The per-cell conversion of `_dataframe_to_dict`:
`if hasattr(value, "item"): value = value.item()` followed by
`if value != value: value = None`. -/
def convertCell (v : PyValue) : PyValue :=
  let v1 := if hasItem v then itemOf v else v
  if pyEqB v1 v1 then v1 else .noneV

/-- A column label of a financial-statement table: a date-like label
(exposing `strftime`) or any other label (stringified as-is). -/
inductive ColLabel where
  | ts (y m d : Nat)
  | plain (s : String)
deriving DecidableEq

/-- Column-label rendering of `_dataframe_to_dict`:
`column.strftime("%Y-%m-%d") if hasattr(column, "strftime") else
str(column)`. -/
def colLabelStr : ColLabel → String
  | .ts y m d =>
      zfill 4 (toString y) ++ "-" ++ zfill 2 (toString m) ++ "-"
        ++ zfill 2 (toString d)
  | .plain s => s

/-- One column of a tabular statement: its label and its cells in row
order (row labels already stringified). -/
structure Col where
  label : ColLabel
  cells : List (String × PyValue)
deriving DecidableEq

/-- A pandas DataFrame as the converter observes it: its columns in
order. -/
structure DataFrame where
  cols : List Col
deriving DecidableEq

/-- `df.empty`: a DataFrame is empty when it holds no cells. -/
def DataFrame.isEmpty (df : DataFrame) : Bool :=
  df.cols.all (fun c => c.cells.isEmpty)

/-- Model of `StockDataFetcher._dataframe_to_dict`: map every column to
its rendered label and its cells to their converted values (an outer
`dict` keyed by column label; modelled as the association list in
insertion order). -/
def dataframeToDict (df : DataFrame) :
    List (String × List (String × PyValue)) :=
  df.cols.map fun c =>
    (colLabelStr c.label, c.cells.map (fun rv => (rv.1, convertCell rv.2)))

/-- The six statement tables a `yfinance` ticker exposes; `none` models a
`None` attribute, as distinct from an empty DataFrame. -/
structure Tables where
  quarterly_income_stmt : Option DataFrame
  income_stmt : Option DataFrame
  quarterly_balance_sheet : Option DataFrame
  balance_sheet : Option DataFrame
  quarterly_cashflow : Option DataFrame
  cashflow : Option DataFrame

/-- A value of the financials bundle: the ticker string or one converted
statement. -/
inductive BundleVal where
  | str (s : String)
  | stmt (m : List (String × List (String × PyValue)))
deriving DecidableEq

/-- The `is not None and not .empty` guard of `get_financials`: the
statement is added only when the table exists and is non-empty. -/
def addStmt (key : String) (odf : Option DataFrame) :
    List (String × BundleVal) :=
  match odf with
  | none => []
  | some df => if df.isEmpty then [] else [(key, .stmt (dataframeToDict df))]

/-- Model of `StockDataFetcher.get_financials` on a successfully fetched
ticker: build the result dict in the order the code inserts keys. -/
def getFinancials (t : Tables) (ticker statementType : String) :
    List (String × BundleVal) :=
  [("ticker", .str (pyUpper ticker))]
    ++ (if statementType == "income" || statementType == "all" then
          addStmt "quarterly_income_statement" t.quarterly_income_stmt
            ++ addStmt "annual_income_statement" t.income_stmt
        else [])
    ++ (if statementType == "balance" || statementType == "all" then
          addStmt "quarterly_balance_sheet" t.quarterly_balance_sheet
            ++ addStmt "annual_balance_sheet" t.balance_sheet
        else [])
    ++ (if statementType == "cashflow" || statementType == "all" then
          addStmt "quarterly_cash_flow" t.quarterly_cashflow
            ++ addStmt "annual_cash_flow" t.cashflow
        else [])

/-- The key set of a financials bundle. -/
def bundleKeys (t : Tables) (ticker statementType : String) : List String :=
  (getFinancials t ticker statementType).map (fun kv => kv.1)

/-- Whether a statement table is present and non-empty (hence included). -/
def present (odf : Option DataFrame) : Bool :=
  match odf with
  | none => false
  | some df => !df.isEmpty

/-- Python truthiness of the values above (`or` falls through on falsy
values: `None`, zero, the empty string; NaN is truthy). -/
def truthy : PyValue → Bool
  | .noneV => false
  | .int n => n != 0
  | .float .nan => true
  | .float (.val q) => q != 0
  | .str s => !(s.isEmpty)
  | .npInt n => n != 0
  | .npFloat .nan => true
  | .npFloat (.val q) => q != 0

/-- Python `a or b` on the modelled values. -/
def pyOr (a b : PyValue) : PyValue :=
  if truthy a then a else b

/-- `info.get(key)`: `None` when the key is absent. -/
def infoGet (info : List (String × PyValue)) (key : String) : PyValue :=
  ((info.find? (fun kv => kv.1 == key)).map (fun kv => kv.2)).getD .noneV

/-- `info.get(key, default)`. -/
def infoGetD (info : List (String × PyValue)) (key : String)
    (dflt : PyValue) : PyValue :=
  ((info.find? (fun kv => kv.1 == key)).map (fun kv => kv.2)).getD dflt

/-- Raw lookup: `some v` when the key is present. -/
def infoLookup (info : List (String × PyValue)) (key : String) :
    Option PyValue :=
  (info.find? (fun kv => kv.1 == key)).map (fun kv => kv.2)

/-- The quote record `get_quote` builds (the retrieval timestamp is the
wall-clock time, supplied here as `now`). -/
structure Quote where
  ticker : PyValue
  price : PyValue
  previous_close : PyValue
  openPrice : PyValue
  day_high : PyValue
  day_low : PyValue
  volume : PyValue
  avg_volume : PyValue
  market_cap : PyValue
  shares_outstanding : PyValue
  float_shares : PyValue
  fifty_two_week_high : PyValue
  fifty_two_week_low : PyValue
  currency : PyValue
  exchange : PyValue
  quote_type : PyValue
  timestamp : PyValue
deriving DecidableEq

/-- Model of `StockDataFetcher.get_quote` on a successfully fetched
`info` mapping (the `openPrice` field models the record's `open` key). -/
def getQuote (info : List (String × PyValue)) (now ticker : String) :
    Quote :=
  { ticker := .str (pyUpper ticker)
  , price := pyOr (infoGet info "currentPrice")
      (infoGet info "regularMarketPrice")
  , previous_close := pyOr (infoGet info "previousClose")
      (infoGet info "regularMarketPreviousClose")
  , openPrice := pyOr (infoGet info "open")
      (infoGet info "regularMarketOpen")
  , day_high := pyOr (infoGet info "dayHigh")
      (infoGet info "regularMarketDayHigh")
  , day_low := pyOr (infoGet info "dayLow")
      (infoGet info "regularMarketDayLow")
  , volume := pyOr (infoGet info "volume")
      (infoGet info "regularMarketVolume")
  , avg_volume := infoGet info "averageVolume"
  , market_cap := infoGet info "marketCap"
  , shares_outstanding := infoGet info "sharesOutstanding"
  , float_shares := infoGet info "floatShares"
  , fifty_two_week_high := infoGet info "fiftyTwoWeekHigh"
  , fifty_two_week_low := infoGet info "fiftyTwoWeekLow"
  , currency := infoGetD info "currency" (.str "USD")
  , exchange := infoGet info "exchange"
  , quote_type := infoGet info "quoteType"
  , timestamp := .str now }

end StockData

/-- C8: the table-to-mapping conversion unwraps native-scalar wrappers to
plain numerics of the same value, maps self-unequal (NaN-like) values to
null, passes every other value through unchanged, renders date-like
column labels as zero-padded `YYYY-MM-DD` strings and stringifies other
labels as-is. -/
theorem dataframeToDict_cells_and_labels :
    (∀ n : ℤ, StockData.convertCell (.npInt n) = .int n) ∧
    (∀ q : ℚ, StockData.convertCell (.npFloat (.val q)) = .float (.val q)) ∧
    StockData.convertCell (.npFloat .nan) = .noneV ∧
    StockData.convertCell (.float .nan) = .noneV ∧
    (∀ v, StockData.hasItem v = false → StockData.isNan v = false →
      StockData.convertCell v = v) ∧
    (∀ df, (StockData.dataframeToDict df).map (fun kv => kv.1) =
      df.cols.map (fun c => StockData.colLabelStr c.label)) ∧
    (∀ y m d, StockData.colLabelStr (.ts y m d) =
      zfill 4 (toString y) ++ "-" ++ zfill 2 (toString m) ++ "-"
        ++ zfill 2 (toString d)) ∧
    StockData.colLabelStr (.ts 2025 9 30) = "2025-09-30" ∧
    (∀ s, StockData.colLabelStr (.plain s) = s) := by
  refine ⟨?_, ?_, rfl, rfl, ?_, ?_, fun _ _ _ => rfl, by decide, fun _ => rfl⟩
  · intro n
    simp [StockData.convertCell, StockData.hasItem, StockData.itemOf,
      StockData.pyEqB, StockData.isNan, StockData.numVal]
  · intro q
    simp [StockData.convertCell, StockData.hasItem, StockData.itemOf,
      StockData.pyEqB, StockData.isNan, StockData.numVal]
  · intro v hitem hnan
    cases v with
    | noneV => rfl
    | int n =>
      simp [StockData.convertCell, StockData.hasItem, StockData.pyEqB,
        StockData.isNan, StockData.numVal]
    | float f =>
      cases f with
      | nan => exact absurd hnan (by simp [StockData.isNan])
      | val q =>
        simp [StockData.convertCell, StockData.hasItem, StockData.pyEqB,
          StockData.isNan, StockData.numVal]
    | str s =>
      simp [StockData.convertCell, StockData.hasItem, StockData.pyEqB,
        StockData.isNan, StockData.numVal]
    | npInt n => exact absurd hitem (by simp [StockData.hasItem])
    | npFloat f => exact absurd hitem (by simp [StockData.hasItem])
  · intro df
    simp [StockData.dataframeToDict]

/-- Witness for C8's pass-through clause: a plain row-label string and a
plain rational value survive conversion unchanged. -/
theorem dataframeToDict_cells_and_labels_witness :
    StockData.hasItem (.str "Total Revenue") = false ∧
    StockData.isNan (.str "Total Revenue") = false ∧
    StockData.convertCell (.str "Total Revenue") = .str "Total Revenue" ∧
    StockData.convertCell (.int 42) = .int 42 := by
  refine ⟨rfl, rfl, ?_, ?_⟩
  · exact dataframeToDict_cells_and_labels.2.2.2.2.1
      (.str "Total Revenue") rfl rfl
  · exact dataframeToDict_cells_and_labels.2.2.2.2.1 (.int 42) rfl rfl

/-- The keys an `addStmt` guard contributes: its key exactly when the
table is present and non-empty. -/
theorem addStmt_keys (key : String) (odf : Option StockData.DataFrame) :
    (StockData.addStmt key odf).map (fun kv => kv.1) =
      if StockData.present odf then [key] else [] := by
  cases odf with
  | none => rfl
  | some df =>
    by_cases h : df.isEmpty
    · simp [StockData.addStmt, StockData.present, h]
    · simp [StockData.addStmt, StockData.present, h]

theorem bundleKeys_income (t : StockData.Tables) (tk : String) :
    StockData.bundleKeys t tk "income" = "ticker" ::
      ((if StockData.present t.quarterly_income_stmt
          then ["quarterly_income_statement"] else []) ++
       (if StockData.present t.income_stmt
          then ["annual_income_statement"] else [])) := by
  simp [StockData.bundleKeys, StockData.getFinancials, addStmt_keys]

theorem bundleKeys_balance (t : StockData.Tables) (tk : String) :
    StockData.bundleKeys t tk "balance" = "ticker" ::
      ((if StockData.present t.quarterly_balance_sheet
          then ["quarterly_balance_sheet"] else []) ++
       (if StockData.present t.balance_sheet
          then ["annual_balance_sheet"] else [])) := by
  simp [StockData.bundleKeys, StockData.getFinancials, addStmt_keys]

theorem bundleKeys_cashflow (t : StockData.Tables) (tk : String) :
    StockData.bundleKeys t tk "cashflow" = "ticker" ::
      ((if StockData.present t.quarterly_cashflow
          then ["quarterly_cash_flow"] else []) ++
       (if StockData.present t.cashflow
          then ["annual_cash_flow"] else [])) := by
  simp [StockData.bundleKeys, StockData.getFinancials, addStmt_keys]

/-- C7: for each single statement type, the successful `get_financials`
bundle holds exactly the type's own quarterly/annual keys — each included
precisely when its table is present and non-empty, omitted entirely
otherwise — and none of the four keys of the other two types. -/
theorem getFinancials_keys_by_type (t : StockData.Tables) (tk st : String) :
    (st = "income" →
      (("quarterly_income_statement" ∈ StockData.bundleKeys t tk st) ↔
        StockData.present t.quarterly_income_stmt = true) ∧
      (("annual_income_statement" ∈ StockData.bundleKeys t tk st) ↔
        StockData.present t.income_stmt = true) ∧
      "quarterly_balance_sheet" ∉ StockData.bundleKeys t tk st ∧
      "annual_balance_sheet" ∉ StockData.bundleKeys t tk st ∧
      "quarterly_cash_flow" ∉ StockData.bundleKeys t tk st ∧
      "annual_cash_flow" ∉ StockData.bundleKeys t tk st) ∧
    (st = "balance" →
      (("quarterly_balance_sheet" ∈ StockData.bundleKeys t tk st) ↔
        StockData.present t.quarterly_balance_sheet = true) ∧
      (("annual_balance_sheet" ∈ StockData.bundleKeys t tk st) ↔
        StockData.present t.balance_sheet = true) ∧
      "quarterly_income_statement" ∉ StockData.bundleKeys t tk st ∧
      "annual_income_statement" ∉ StockData.bundleKeys t tk st ∧
      "quarterly_cash_flow" ∉ StockData.bundleKeys t tk st ∧
      "annual_cash_flow" ∉ StockData.bundleKeys t tk st) ∧
    (st = "cashflow" →
      (("quarterly_cash_flow" ∈ StockData.bundleKeys t tk st) ↔
        StockData.present t.quarterly_cashflow = true) ∧
      (("annual_cash_flow" ∈ StockData.bundleKeys t tk st) ↔
        StockData.present t.cashflow = true) ∧
      "quarterly_income_statement" ∉ StockData.bundleKeys t tk st ∧
      "annual_income_statement" ∉ StockData.bundleKeys t tk st ∧
      "quarterly_balance_sheet" ∉ StockData.bundleKeys t tk st ∧
      "annual_balance_sheet" ∉ StockData.bundleKeys t tk st) := by
  refine ⟨?_, ?_, ?_⟩
  · rintro rfl
    rw [bundleKeys_income]
    by_cases h1 : StockData.present t.quarterly_income_stmt <;>
      by_cases h2 : StockData.present t.income_stmt <;>
        simp [h1, h2]
  · rintro rfl
    rw [bundleKeys_balance]
    by_cases h1 : StockData.present t.quarterly_balance_sheet <;>
      by_cases h2 : StockData.present t.balance_sheet <;>
        simp [h1, h2]
  · rintro rfl
    rw [bundleKeys_cashflow]
    by_cases h1 : StockData.present t.quarterly_cashflow <;>
      by_cases h2 : StockData.present t.cashflow <;>
        simp [h1, h2]

/-- Witness for C7 at a concrete ticker: with the quarterly income table
non-empty and the annual one empty, requesting `income` includes exactly
the quarterly income key and no balance or cash-flow key. -/
theorem getFinancials_keys_by_type_witness :
    ("quarterly_income_statement" ∈ StockData.bundleKeys
      { quarterly_income_stmt := some
          { cols := [{ label := .ts 2025 9 30
                     , cells := [("Total Revenue", .npInt 1000)] }] }
      , income_stmt := some { cols := [] }
      , quarterly_balance_sheet := some
          { cols := [{ label := .ts 2025 9 30
                     , cells := [("Total Assets", .npInt 2000)] }] }
      , balance_sheet := none
      , quarterly_cashflow := none
      , cashflow := none } "aapl" "income") ∧
    ("annual_income_statement" ∉ StockData.bundleKeys
      { quarterly_income_stmt := some
          { cols := [{ label := .ts 2025 9 30
                     , cells := [("Total Revenue", .npInt 1000)] }] }
      , income_stmt := some { cols := [] }
      , quarterly_balance_sheet := some
          { cols := [{ label := .ts 2025 9 30
                     , cells := [("Total Assets", .npInt 2000)] }] }
      , balance_sheet := none
      , quarterly_cashflow := none
      , cashflow := none } "aapl" "income") ∧
    ("quarterly_balance_sheet" ∉ StockData.bundleKeys
      { quarterly_income_stmt := some
          { cols := [{ label := .ts 2025 9 30
                     , cells := [("Total Revenue", .npInt 1000)] }] }
      , income_stmt := some { cols := [] }
      , quarterly_balance_sheet := some
          { cols := [{ label := .ts 2025 9 30
                     , cells := [("Total Assets", .npInt 2000)] }] }
      , balance_sheet := none
      , quarterly_cashflow := none
      , cashflow := none } "aapl" "income") := by
  refine ⟨?_, ?_, ?_⟩
  · exact ((getFinancials_keys_by_type _ "aapl" "income").1 rfl).1.mpr
      (by decide)
  · intro hmem
    exact absurd (((getFinancials_keys_by_type _ "aapl" "income").1
      rfl).2.1.mp hmem) (by decide)
  · exact ((getFinancials_keys_by_type _ "aapl" "income").1 rfl).2.2.1

theorem infoGet_of_lookup_none {info : List (String × StockData.PyValue)}
    {k : String} (h : StockData.infoLookup info k = none) :
    StockData.infoGet info k = .noneV := by
  unfold StockData.infoGet
  unfold StockData.infoLookup at h
  rw [h]
  rfl

theorem infoGetD_of_lookup_none {info : List (String × StockData.PyValue)}
    {k : String} {d : StockData.PyValue}
    (h : StockData.infoLookup info k = none) :
    StockData.infoGetD info k d = d := by
  unfold StockData.infoGetD
  unfold StockData.infoLookup at h
  rw [h]
  rfl

/-- C10: `get_quote` defaults a missing `currency` source key to the
string `USD`, while every other optional quote field is null whenever its
source key — and, for the fields with a `regularMarket*` fallback, both
source keys — are absent from the provider's info mapping. -/
theorem getQuote_currency_default_others_null
    (info : List (String × StockData.PyValue)) (now tk : String) :
    (StockData.infoLookup info "currency" = none →
      (StockData.getQuote info now tk).currency = .str "USD") ∧
    (StockData.infoLookup info "currentPrice" = none →
      StockData.infoLookup info "regularMarketPrice" = none →
      (StockData.getQuote info now tk).price = .noneV) ∧
    (StockData.infoLookup info "previousClose" = none →
      StockData.infoLookup info "regularMarketPreviousClose" = none →
      (StockData.getQuote info now tk).previous_close = .noneV) ∧
    (StockData.infoLookup info "open" = none →
      StockData.infoLookup info "regularMarketOpen" = none →
      (StockData.getQuote info now tk).openPrice = .noneV) ∧
    (StockData.infoLookup info "dayHigh" = none →
      StockData.infoLookup info "regularMarketDayHigh" = none →
      (StockData.getQuote info now tk).day_high = .noneV) ∧
    (StockData.infoLookup info "dayLow" = none →
      StockData.infoLookup info "regularMarketDayLow" = none →
      (StockData.getQuote info now tk).day_low = .noneV) ∧
    (StockData.infoLookup info "volume" = none →
      StockData.infoLookup info "regularMarketVolume" = none →
      (StockData.getQuote info now tk).volume = .noneV) ∧
    (StockData.infoLookup info "averageVolume" = none →
      (StockData.getQuote info now tk).avg_volume = .noneV) ∧
    (StockData.infoLookup info "marketCap" = none →
      (StockData.getQuote info now tk).market_cap = .noneV) ∧
    (StockData.infoLookup info "sharesOutstanding" = none →
      (StockData.getQuote info now tk).shares_outstanding = .noneV) ∧
    (StockData.infoLookup info "floatShares" = none →
      (StockData.getQuote info now tk).float_shares = .noneV) ∧
    (StockData.infoLookup info "fiftyTwoWeekHigh" = none →
      (StockData.getQuote info now tk).fifty_two_week_high = .noneV) ∧
    (StockData.infoLookup info "fiftyTwoWeekLow" = none →
      (StockData.getQuote info now tk).fifty_two_week_low = .noneV) ∧
    (StockData.infoLookup info "exchange" = none →
      (StockData.getQuote info now tk).exchange = .noneV) ∧
    (StockData.infoLookup info "quoteType" = none →
      (StockData.getQuote info now tk).quote_type = .noneV) := by
  refine ⟨?_, ?_, ?_, ?_, ?_, ?_, ?_, ?_, ?_, ?_, ?_, ?_, ?_, ?_, ?_⟩
  · intro h
    show StockData.infoGetD info "currency" (.str "USD") = .str "USD"
    exact infoGetD_of_lookup_none h
  all_goals
    first
    | (intro h1 h2
       show StockData.pyOr (StockData.infoGet info _)
         (StockData.infoGet info _) = .noneV
       rw [infoGet_of_lookup_none h1, infoGet_of_lookup_none h2]
       rfl)
    | (intro h1
       show StockData.infoGet info _ = .noneV
       exact infoGet_of_lookup_none h1)

/-- Witness for C10 on an empty info mapping: the currency defaults to
`USD` and a fallback field and a single-key field are both null. -/
theorem getQuote_currency_default_others_null_witness :
    (StockData.getQuote [] "2026-01-01T00:00:00" "aapl").currency =
      .str "USD" ∧
    (StockData.getQuote [] "2026-01-01T00:00:00" "aapl").price = .noneV ∧
    (StockData.getQuote [] "2026-01-01T00:00:00" "aapl").avg_volume =
      .noneV := by
  refine ⟨?_, ?_, ?_⟩
  · exact (getQuote_currency_default_others_null []
      "2026-01-01T00:00:00" "aapl").1 rfl
  · exact (getQuote_currency_default_others_null []
      "2026-01-01T00:00:00" "aapl").2.1 rfl rfl
  · exact (getQuote_currency_default_others_null []
      "2026-01-01T00:00:00" "aapl").2.2.2.2.2.2.2.1 rfl
